import Mathlib

/-!
Verification of the kiosk-autoscaler scaling engine.

Shallow embedding of the Python sources:
  - `autoscaler/autoscaler.py` (class `Autoscaler`): configuration parsing,
    backlog tallying, desired-replica computation, resource inspection and
    patching;
  - `autoscaler/redis.py` (class `RedisClient`): the retrying wrapper around
    the Redis store.

Python integers are unbounded, so they are modelled by `Int` (counts that are
provably nonnegative use `Nat`).  Python floor division `//` is `Int.fdiv`.
Fallible code returns `Except`/`Option`.
-/

namespace KioskAutoscaler

/-! ## Desired-replica computation (autoscaler.py lines 264-288) -/

/-- Embedding of `Autoscaler.clip_pod_count` (autoscaler.py:264-276).
Clamps `desired_pods` into the max/min boundaries, then applies the
scale-down guard: to avoid removing currently running pods, a positive
target below `current_pods` is raised to `current_pods`. -/
def clip_pod_count (desired_pods min_pods max_pods current_pods : Int) : Int :=
  let d :=
    if desired_pods > max_pods then max_pods
    else if desired_pods < min_pods then min_pods
    else desired_pods
  if 0 < d ∧ d < current_pods then current_pods else d

/-- Embedding of `Autoscaler.get_desired_pods` (autoscaler.py:278-282).
`tally` stands for the `self.redis_keys` dictionary: it maps a queue
pattern to its tallied backlog count.  Python `//` is floor division,
hence `Int.fdiv`. -/
def get_desired_pods (tally : String → Int) (key : String)
    (keys_per_pod min_pods max_pods current_pods : Int) : Int :=
  clip_pod_count (Int.fdiv (tally key) keys_per_pod) min_pods max_pods current_pods

/-- Embedding of `Autoscaler.get_secondary_desired_pods` (autoscaler.py:284-288). -/
def get_secondary_desired_pods (reference_pods pods_per_reference_pod
    min_pods max_pods current_pods : Int) : Int :=
  clip_pod_count (current_pods + pods_per_reference_pod * reference_pods)
    min_pods max_pods current_pods

/-- Clamp and scale-down guard exactly as the spec words them
(spec section 4.4, steps 2-3): `clamped = max(min_replicas, min(max_replicas, raw))`,
then the result is `current_replicas` if `0 < clamped < current_replicas`
and `clamped` otherwise.  Spec-side definition, used to state refinement. -/
def clamp_guard_spec (raw min_replicas max_replicas current_replicas : Int) : Int :=
  let clamped := max min_replicas (min max_replicas raw)
  if 0 < clamped ∧ clamped < current_replicas then current_replicas else clamped

/-- The desired-replica computation exactly as the spec words it
(spec section 4.4, steps 1-4): floor the backlog by the divisor, clamp,
guard.  Spec-side definition, used to state refinement. -/
def desired_replicas_spec (backlog_count replicas_per_unit
    min_replicas max_replicas current_replicas : Int) : Int :=
  clamp_guard_spec (Int.fdiv backlog_count replicas_per_unit)
    min_replicas max_replicas current_replicas

/-- The code clamp (`if d > max ... elif d < min ...`) agrees with the
spec clamp (`max min (min max d)`) whenever `min_pods ≤ max_pods`. -/
theorem clip_pod_count_eq_clamp_guard_spec (d min_pods max_pods cur : Int)
    (h : min_pods ≤ max_pods) :
    clip_pod_count d min_pods max_pods cur = clamp_guard_spec d min_pods max_pods cur := by
  simp only [clip_pod_count, clamp_guard_spec]
  split_ifs <;> omega

/-- C1: for backlog_count >= 0, replicas_per_unit > 0, 0 <= min <= max and
current >= 0, `get_desired_pods` (via `clip_pod_count`) returns exactly the
spec formula: raw = floor(backlog / per_unit), clamped = max(min, min(max, raw)),
and the result is current if 0 < clamped < current, else clamped
(which is `desired_replicas_spec`). -/
theorem get_desired_pods_matches_spec (tally : String → Int) (key : String)
    (keys_per_pod min_pods max_pods current_pods : Int)
    (hb : 0 ≤ tally key) (hk : 0 < keys_per_pod)
    (hmin : 0 ≤ min_pods) (hmm : min_pods ≤ max_pods) (hcur : 0 ≤ current_pods) :
    get_desired_pods tally key keys_per_pod min_pods max_pods current_pods =
      desired_replicas_spec (tally key) keys_per_pod min_pods max_pods current_pods := by
  unfold get_desired_pods desired_replicas_spec
  exact clip_pod_count_eq_clamp_guard_spec _ _ _ _ hmm

/-- Witness for C1: spec section 8 scenario, backlog predict = 10,
keys_per_pod = 2, bounds [0, 5], current = 1: result is 5. -/
theorem get_desired_pods_matches_spec_witness :
    0 ≤ (fun _ : String => (10 : Int)) "predict" ∧ (0 : Int) < 2 ∧
      (0 : Int) ≤ 0 ∧ (0 : Int) ≤ 5 ∧ (0 : Int) ≤ 1 ∧
      get_desired_pods (fun _ : String => (10 : Int)) "predict" 2 0 5 1 = 5 := by
  refine ⟨by norm_num, by norm_num, le_refl 0, by norm_num, by norm_num, ?_⟩
  have h := get_desired_pods_matches_spec (fun _ : String => (10 : Int)) "predict"
    2 0 5 1 (by norm_num) (by norm_num) (le_refl 0) (by norm_num) (by norm_num)
  exact h.trans (by decide)

/-! ## Multi-rule fingerprints (autoscaler.py lines 309-362) -/

/-- One parsed primary autoscaling rule: the dict built by
`Autoscaler._get_primary_autoscaling_params` (autoscaler.py:100-105).
The Python field named `prefix` is called `pfx` here. -/
structure ScaleRule where
  min_pods : Int
  max_pods : Int
  keys_per_pod : Int
  pfx : String
deriving DecidableEq

/-- Python `max()` of a list, as used on `min_pods_for_all_entries`
(autoscaler.py:347).  Python raises on an empty list; the `[]` case is
unreachable at the call site and mapped to 0. -/
def pyListMax : List Int → Int
  | [] => 0
  | x :: xs => xs.foldl max x

/-- Python `min()` of a list, as used on `max_pods_for_all_entries`
(autoscaler.py:348). -/
def pyListMin : List Int → Int
  | [] => 0
  | x :: xs => xs.foldl min x

/-- Embedding of the per-fingerprint body of
`Autoscaler.scale_primary_resources` (autoscaler.py:309-362): sum
`get_desired_pods` over all entries sharing the fingerprint, then, unless
the entry list is empty (in which case the code returns early, modelled
`none`), reapply `clip_pod_count` with the tightest combined bounds
(max of the per-rule minima, min of the per-rule maxima).  The returned
value is what the code hands to `scale_resource` together with
`current_pods`. -/
def scale_primary_fingerprint (tally : String → Int) (entries : List ScaleRule)
    (current_pods : Int) : Option Int :=
  let desired := entries.foldl
    (fun acc e =>
      acc + get_desired_pods tally e.pfx e.keys_per_pod e.min_pods e.max_pods current_pods)
    0
  if entries = [] then none
  else
    let min_pods := pyListMax (entries.map (·.min_pods))
    let max_pods := pyListMin (entries.map (·.max_pods))
    some (clip_pod_count desired min_pods max_pods current_pods)

theorem foldl_add_eq_sum_map {α : Type} (f : α → Int) (l : List α) (init : Int) :
    l.foldl (fun acc e => acc + f e) init = init + (l.map f).sum := by
  induction l generalizing init with
  | nil => simp
  | cons a t ih =>
    simp only [List.foldl_cons, List.map_cons, List.sum_cons, ih]
    ring

theorem sum_map_congr {α : Type} (l : List α) (f g : α → Int)
    (h : ∀ a ∈ l, f a = g a) : (l.map f).sum = (l.map g).sum := by
  induction l with
  | nil => rfl
  | cons a t ih =>
    simp only [List.map_cons, List.sum_cons]
    rw [h a (List.mem_cons_self a t), ih (fun x hx => h x (List.mem_cons_of_mem a hx))]

/-- C2: for a fingerprint with two or more rules, the engine sums the
per-rule desired counts (each computed by the spec desired-replica steps
with that rule's own bounds and the shared current count) and reapplies
the spec clamp and scale-down guard with min = max of all rule minima and
max = min of all rule maxima, producing the value handed to the patch
decision. -/
theorem scale_primary_fingerprint_matches_spec (tally : String → Int)
    (entries : List ScaleRule) (current_pods : Int)
    (hlen : 2 ≤ entries.length)
    (hmm : ∀ e ∈ entries, e.min_pods ≤ e.max_pods)
    (hcomb : pyListMax (entries.map (·.min_pods)) ≤ pyListMin (entries.map (·.max_pods))) :
    scale_primary_fingerprint tally entries current_pods =
      some (clamp_guard_spec
        ((entries.map (fun e =>
          desired_replicas_spec (tally e.pfx) e.keys_per_pod
            e.min_pods e.max_pods current_pods)).sum)
        (pyListMax (entries.map (·.min_pods)))
        (pyListMin (entries.map (·.max_pods)))
        current_pods) := by
  have hne : entries ≠ [] := by
    intro h
    rw [h] at hlen
    simp at hlen
  simp only [scale_primary_fingerprint, if_neg hne]
  rw [foldl_add_eq_sum_map, zero_add]
  rw [clip_pod_count_eq_clamp_guard_spec _ _ _ _ hcomb]
  rw [sum_map_congr entries
    (fun e => get_desired_pods tally e.pfx e.keys_per_pod e.min_pods e.max_pods current_pods)
    (fun e => desired_replicas_spec (tally e.pfx) e.keys_per_pod e.min_pods e.max_pods current_pods)
    (fun e he => clip_pod_count_eq_clamp_guard_spec _ _ _ _ (hmm e he))]

/-- Concrete rules for the C2 witness: spec section 8 example bounds
min = [0, 1], max = [5, 2], with backlogs predict = 10, train = 0. -/
def witnessRuleA : ScaleRule := ⟨0, 5, 2, "predict"⟩

def witnessRuleB : ScaleRule := ⟨1, 2, 1, "train"⟩

def witnessTally : String → Int := fun k => if k = "predict" then 10 else 0

/-- Witness for C2: the two spec-example rules combine to effective bounds
[1, 2]; per-rule desireds are 5 and 1, the sum 6 clamps to 2. -/
theorem scale_primary_fingerprint_matches_spec_witness :
    2 ≤ ([witnessRuleA, witnessRuleB] : List ScaleRule).length ∧
      (∀ e ∈ ([witnessRuleA, witnessRuleB] : List ScaleRule), e.min_pods ≤ e.max_pods) ∧
      pyListMax (([witnessRuleA, witnessRuleB] : List ScaleRule).map (·.min_pods)) ≤
        pyListMin (([witnessRuleA, witnessRuleB] : List ScaleRule).map (·.max_pods)) ∧
      scale_primary_fingerprint witnessTally [witnessRuleA, witnessRuleB] 1 = some 2 := by
  refine ⟨by decide, by decide, by decide, ?_⟩
  have h := scale_primary_fingerprint_matches_spec witnessTally
    [witnessRuleA, witnessRuleB] 1 (by decide) (by decide) (by decide)
  exact h.trans (by decide)

/-! ## Patching (autoscaler.py lines 290-307) -/

/-- A patch call issued to the Kubernetes API: `patch_namespaced_deployment`
with body spec.replicas, or `patch_namespaced_job` with body
spec.parallelism (autoscaler.py:295-302). -/
inductive PatchCall
  | deployment (name ns : String) (replicas : Int)
  | job (name ns : String) (parallelism : Int)
deriving DecidableEq

/-- Observable outcome of `Autoscaler.scale_resource`: the patch calls it
issued, whether the successfully-scaled info message was logged, and the
Python return value (`None` on the early return, modelled `none`;
`True` otherwise). -/
structure ScaleResult where
  patches : List PatchCall
  logged_success : Bool
  ret : Option Bool
deriving DecidableEq

/-- Embedding of `Autoscaler.scale_resource` (autoscaler.py:290-307).
If `desired_pods == current_pods` the function returns early (Python
`return`, i.e. `None`).  Otherwise it patches a job via spec.parallelism
or a deployment via spec.replicas; any other resource_type falls through
both branches without a patch call and without raising, still logs the
success message, and returns `True`. -/
def scale_resource (desired_pods current_pods : Int)
    (resource_type ns name : String) : ScaleResult :=
  if desired_pods = current_pods then ⟨[], false, none⟩
  else
    let patches :=
      if resource_type = "job" then [PatchCall.job name ns desired_pods]
      else if resource_type = "deployment" then [PatchCall.deployment name ns desired_pods]
      else []
    ⟨patches, true, some true⟩

/-- Python truthiness of the wrapper return value: `None` is falsy. -/
def pyTruthy : Option Bool → Bool
  | none => false
  | some b => b

/-- C8: `scale_resource` issues no patch and returns a falsy value
(Python `None`) when desired equals current; when they differ it issues
exactly one patch (spec.replicas for a deployment, spec.parallelism for a
job, set to the desired count) and returns `True`. -/
theorem scale_resource_noop_and_patch (desired_pods current_pods : Int)
    (resource_type ns name : String) :
    (desired_pods = current_pods →
      scale_resource desired_pods current_pods resource_type ns name = ⟨[], false, none⟩ ∧
      pyTruthy (scale_resource desired_pods current_pods resource_type ns name).ret = false) ∧
    (desired_pods ≠ current_pods → resource_type = "deployment" →
      scale_resource desired_pods current_pods resource_type ns name =
        ⟨[PatchCall.deployment name ns desired_pods], true, some true⟩) ∧
    (desired_pods ≠ current_pods → resource_type = "job" →
      scale_resource desired_pods current_pods resource_type ns name =
        ⟨[PatchCall.job name ns desired_pods], true, some true⟩) := by
  refine ⟨fun h => ?_, fun h hrt => ?_, fun h hrt => ?_⟩
  · simp [scale_resource, h, pyTruthy]
  · subst hrt
    simp [scale_resource, h]
  · subst hrt
    simp [scale_resource, h]

/-- Witness for C8: all three branches at concrete inputs. -/
theorem scale_resource_noop_and_patch_witness :
    scale_resource 3 3 "deployment" "ns" "web" = ⟨[], false, none⟩ ∧
    scale_resource 5 1 "deployment" "ns" "web" =
      ⟨[PatchCall.deployment "web" "ns" 5], true, some true⟩ ∧
    scale_resource 0 2 "job" "ns" "trainer" =
      ⟨[PatchCall.job "trainer" "ns" 0], true, some true⟩ :=
  ⟨((scale_resource_noop_and_patch 3 3 "deployment" "ns" "web").1 rfl).1,
   (scale_resource_noop_and_patch 5 1 "deployment" "ns" "web").2.1 (by decide) rfl,
   (scale_resource_noop_and_patch 0 2 "job" "ns" "trainer").2.2 (by decide) rfl⟩

/-- C10: for a resource_type that is neither deployment nor job,
`scale_resource` with differing counts issues no patch, does not raise
(the embedding is total and hits no error case: in the source `res` is
simply never assigned), still logs the successfully-scaled message, and
returns `True` — only `get_current_pods` validates the resource type. -/
theorem scale_resource_unknown_type (desired_pods current_pods : Int)
    (resource_type ns name : String)
    (h1 : resource_type ≠ "deployment") (h2 : resource_type ≠ "job")
    (h3 : desired_pods ≠ current_pods) :
    scale_resource desired_pods current_pods resource_type ns name =
      ⟨[], true, some true⟩ := by
  simp [scale_resource, h1, h2, h3]

/-- Witness for C10: a statefulset is silently "scaled". -/
theorem scale_resource_unknown_type_witness :
    scale_resource 2 0 "statefulset" "ns" "web" = ⟨[], true, some true⟩ :=
  scale_resource_unknown_type 2 0 "statefulset" "ns" "web"
    (by decide) (by decide) (by decide)

/-! ## Resource inspection (autoscaler.py lines 221-262) -/

/-- The fields of a listed Deployment that `get_current_pods` reads:
metadata.name, spec.replicas, status.available_replicas.  Replica fields
may be null in the API response, hence `Option`. -/
structure DeploymentInfo where
  name : String
  spec_replicas : Option Int
  status_available_replicas : Option Int
deriving DecidableEq

/-- The fields of a listed Job that `get_current_pods` reads:
metadata.name and spec.parallelism (nullable). -/
structure JobInfo where
  name : String
  spec_parallelism : Option Int
deriving DecidableEq

/-- The cluster listings, per namespace: what `list_namespaced_deployment`
and `list_namespaced_job` return. -/
structure KubeCluster where
  deployments : String → List DeploymentInfo
  jobs : String → List JobInfo

/-- The `self.managed_resource_types` set (autoscaler.py:76). -/
def managed_resource_types : List String := ["deployment", "job"]

/-- The ValueError message raised for an unmanaged resource type
(autoscaler.py:235-236). -/
def unsuitable_resource_type_msg (resource_type : String) : String :=
  "The resource_type of " ++ resource_type ++
    " is unsuitable. Use either`deployment` or `job`"

/-- Embedding of `Autoscaler.get_current_pods` (autoscaler.py:221-262).
The Python loop takes the first listing whose metadata.name matches and
breaks, leaving `current_pods = 0` when nothing matches; a `None` replica
value is converted to 0 at the end.  The ValueError for an unmanaged
resource_type is modelled as `Except.error`. -/
def get_current_pods (c : KubeCluster) (ns resource_type name : String)
    (only_running : Bool) : Except String Int :=
  if resource_type ∉ managed_resource_types then
    Except.error (unsuitable_resource_type_msg resource_type)
  else
    let current_pods : Option Int :=
      if resource_type = "deployment" then
        match (c.deployments ns).find? (fun d => d.name = name) with
        | some d => if only_running then d.status_available_replicas else d.spec_replicas
        | none => some 0
      else if resource_type = "job" then
        match (c.jobs ns).find? (fun j => j.name = name) with
        | some j => j.spec_parallelism
        | none => some 0
      else some 0
    Except.ok (current_pods.getD 0)

/-- Resource inspection exactly as the spec words it (spec section 4.5):
reject anything but deployment/job; for a deployment return
status.available_replicas if only_running else spec.replicas with null
treated as 0; for a job return spec.parallelism; return 0 when no
resource of the given name is in the listing.  Spec-side definition. -/
def current_replicas_spec (c : KubeCluster) (ns resource_type name : String)
    (only_running : Bool) : Except String Int :=
  if resource_type ≠ "deployment" ∧ resource_type ≠ "job" then
    Except.error (unsuitable_resource_type_msg resource_type)
  else if resource_type = "deployment" then
    match (c.deployments ns).find? (fun d => d.name = name) with
    | some d =>
      Except.ok ((if only_running then d.status_available_replicas else d.spec_replicas).getD 0)
    | none => Except.ok 0
  else
    match (c.jobs ns).find? (fun j => j.name = name) with
    | some j => Except.ok (j.spec_parallelism.getD 0)
    | none => Except.ok 0

/-- C7: `get_current_pods` behaves exactly as the spec describes: an
invalid-argument error for a resource_type outside deployment/job;
status.available_replicas (when only_running) or spec.replicas for the
first matching deployment with null treated as 0; spec.parallelism for
the first matching job; 0 when the name is not in the listing. -/
theorem get_current_pods_matches_spec (c : KubeCluster)
    (ns resource_type name : String) (only_running : Bool) :
    get_current_pods c ns resource_type name only_running =
      current_replicas_spec c ns resource_type name only_running := by
  unfold get_current_pods current_replicas_spec managed_resource_types
  by_cases hd : resource_type = "deployment"
  · subst hd
    simp only [List.mem_cons, List.mem_singleton]
    norm_num
    cases (c.deployments ns).find? (fun d => d.name = name) <;> simp
  · by_cases hj : resource_type = "job"
    · subst hj
      simp only [List.mem_cons, List.mem_singleton]
      norm_num
      cases (c.jobs ns).find? (fun j => j.name = name) <;> simp
    · simp [hd, hj]

/-! ## Secondary scaling (autoscaler.py lines 364-420) -/

/-- Lookup in the `self.reference_pods` dictionary, modelled as an
association list with unique keys, with a default. -/
def lookupD (m : List (String × Int)) (k : String) (d : Int) : Int :=
  match m.find? (fun kv => kv.1 = k) with
  | some kv => kv.2
  | none => d

/-- Dictionary key membership test. -/
def containsKey (m : List (String × Int)) (k : String) : Bool :=
  m.any (fun kv => kv.1 = k)

/-- Dictionary assignment: overwrite the first entry with the given key. -/
def setKey : List (String × Int) → String → Int → List (String × Int)
  | [], _, _ => []
  | kv :: rest, k, v => if kv.1 = k then (kv.1, v) :: rest else kv :: setKey rest k v

theorem lookupD_cons_eq (kv : String × Int) (m : List (String × Int)) (k : String)
    (d : Int) (h : kv.1 = k) : lookupD (kv :: m) k d = kv.2 := by
  unfold lookupD
  rw [List.find?_cons_of_pos _ (by simp [h])]

theorem lookupD_cons_ne (kv : String × Int) (m : List (String × Int)) (k : String)
    (d : Int) (h : ¬ kv.1 = k) : lookupD (kv :: m) k d = lookupD m k d := by
  unfold lookupD
  rw [List.find?_cons_of_neg _ (by simp [h])]

theorem containsKey_iff_find? (m : List (String × Int)) (k : String) :
    containsKey m k = true ↔ (m.find? (fun kv => kv.1 = k)).isSome := by
  unfold containsKey
  rw [List.any_eq_true, List.find?_isSome]

theorem lookupD_eq_default_of_not_contains (m : List (String × Int)) (k : String)
    (d : Int) (h : containsKey m k = false) : lookupD m k d = d := by
  unfold lookupD
  have hnone : m.find? (fun kv => kv.1 = k) = none := by
    cases hfind : m.find? (fun kv => kv.1 = k) with
    | none => rfl
    | some kv =>
      have : containsKey m k = true := (containsKey_iff_find? m k).mpr (by simp [hfind])
      rw [this] at h
      exact absurd h (by simp)
  rw [hnone]

theorem lookupD_append_single (m : List (String × Int)) (k : String) (v d : Int) :
    lookupD (m ++ [(k, v)]) k d = if containsKey m k then lookupD m k d else v := by
  by_cases hc : containsKey m k
  · rw [if_pos hc]
    obtain ⟨kv, hfind⟩ := Option.isSome_iff_exists.mp ((containsKey_iff_find? m k).mp hc)
    unfold lookupD
    rw [List.find?_append, hfind]
    rfl
  · rw [if_neg hc]
    have hnone : m.find? (fun kv => kv.1 = k) = none := by
      cases hfind : m.find? (fun kv => kv.1 = k) with
      | none => rfl
      | some kv =>
        exact absurd ((containsKey_iff_find? m k).mpr (by simp [hfind])) hc
    unfold lookupD
    rw [List.find?_append, hnone]
    simp

theorem lookupD_append_single_ne (m : List (String × Int)) (k k' : String)
    (v d : Int) (h : k' ≠ k) : lookupD (m ++ [(k, v)]) k' d = lookupD m k' d := by
  unfold lookupD
  rw [List.find?_append]
  have hsingle : ([(k, v)] : List (String × Int)).find? (fun kv => kv.1 = k') = none := by
    simp [Ne.symm h]
  rw [hsingle, Option.or_none]

theorem containsKey_append_single_self (m : List (String × Int)) (k : String) (v : Int) :
    containsKey (m ++ [(k, v)]) k = true := by
  simp [containsKey, List.any_append]

theorem lookupD_setKey_self (m : List (String × Int)) (k : String) (v d : Int)
    (h : containsKey m k = true) : lookupD (setKey m k v) k d = v := by
  induction m with
  | nil => simp [containsKey] at h
  | cons kv rest ih =>
    by_cases hk : kv.1 = k
    · simp only [setKey, if_pos hk]
      exact lookupD_cons_eq (kv.1, v) rest k d hk
    · simp only [setKey, if_neg hk]
      rw [lookupD_cons_ne _ _ _ _ hk]
      refine ih ?_
      unfold containsKey at h ⊢
      simpa [List.any_cons, hk] using h

theorem lookupD_setKey_ne (m : List (String × Int)) (k k' : String) (v d : Int)
    (h : k' ≠ k) : lookupD (setKey m k v) k' d = lookupD m k' d := by
  induction m with
  | nil => rfl
  | cons kv rest ih =>
    by_cases hk : kv.1 = k
    · simp only [setKey, if_pos hk]
      have h1 : ¬ kv.1 = k' := fun hh => h (hk.symm.trans hh).symm
      rw [lookupD_cons_ne (kv.1, v) rest k' d h1, lookupD_cons_ne kv rest k' d h1]
    · simp only [setKey, if_neg hk]
      by_cases hk' : kv.1 = k'
      · rw [lookupD_cons_eq _ _ _ _ hk', lookupD_cons_eq _ _ _ _ hk']
      · rw [lookupD_cons_ne _ _ _ _ hk', lookupD_cons_ne _ _ _ _ hk', ih]

/-- One parsed secondary autoscaling entry (autoscaler.py:369-377):
`resource_name|resource_type|resource_ns|ref_name|ref_type|ref_ns|`
`pods_per_other_pod|min_pods|max_pods`. -/
structure SecondaryRule where
  resource_name : String
  resource_type : String
  resource_ns : String
  ref_name : String
  ref_type : String
  ref_ns : String
  pods_per_other_pod : Int
  min_pods : Int
  max_pods : Int
deriving DecidableEq

/-- Embedding of the per-entry body of `Autoscaler.scale_secondary_resources`
(autoscaler.py:383-420), after successful field parsing: default the
reference-pod memory entry to 0 if absent, observe the running replicas of
the reference resource, compute the newly seen replicas, unconditionally
update the memory to the observed count, and only when the newly seen
count is strictly positive compute the dependent resource's desired count
and call `scale_resource`.  A ValueError from `get_current_pods`
propagates as `Except.error`. -/
def scale_secondary_entry (c : KubeCluster) (reference_pods : List (String × Int))
    (r : SecondaryRule) : Except String (List (String × Int) × List PatchCall) := do
  let rp1 := if containsKey reference_pods r.resource_name then reference_pods
    else reference_pods ++ [(r.resource_name, 0)]
  let current_reference_pods ← get_current_pods c r.ref_ns r.ref_type r.ref_name true
  let new_reference_pods := current_reference_pods - lookupD rp1 r.resource_name 0
  let rp2 := setKey rp1 r.resource_name current_reference_pods
  if 0 < new_reference_pods then do
    let current_pods ← get_current_pods c r.resource_ns r.resource_type r.resource_name false
    let desired_pods := get_secondary_desired_pods new_reference_pods
      r.pods_per_other_pod r.min_pods r.max_pods current_pods
    pure (rp2, (scale_resource desired_pods current_pods r.resource_type
      r.resource_ns r.resource_name).patches)
  else
    pure (rp2, [])

theorem get_current_pods_is_ok (c : KubeCluster) (ns resource_type name : String)
    (only_running : Bool)
    (h : resource_type = "deployment" ∨ resource_type = "job") :
    ∃ v, get_current_pods c ns resource_type name only_running = Except.ok v := by
  rcases h with h | h <;> subst h <;>
    simp [get_current_pods, managed_resource_types]

/-- C9: evaluating a secondary rule always updates the stored last-observed
reference-replica count to the currently observed one; when the newly
observed count (current minus last stored) is zero or negative no patch is
issued and no other key of the memory changes; a scale action is attempted
only when the newly observed count is strictly positive. -/
theorem scale_secondary_entry_updates_memory (c : KubeCluster)
    (reference_pods : List (String × Int)) (r : SecondaryRule) (curRef : Int)
    (href : get_current_pods c r.ref_ns r.ref_type r.ref_name true = Except.ok curRef)
    (hrt : r.resource_type = "deployment" ∨ r.resource_type = "job") :
    ∃ rp' patches,
      scale_secondary_entry c reference_pods r = Except.ok (rp', patches) ∧
      lookupD rp' r.resource_name 0 = curRef ∧
      (∀ k, k ≠ r.resource_name → lookupD rp' k 0 = lookupD reference_pods k 0) ∧
      (curRef - lookupD reference_pods r.resource_name 0 ≤ 0 → patches = []) ∧
      (0 < curRef - lookupD reference_pods r.resource_name 0 →
        ∃ current_pods,
          get_current_pods c r.resource_ns r.resource_type r.resource_name false =
            Except.ok current_pods ∧
          patches = (scale_resource
            (get_secondary_desired_pods
              (curRef - lookupD reference_pods r.resource_name 0)
              r.pods_per_other_pod r.min_pods r.max_pods current_pods)
            current_pods r.resource_type r.resource_ns r.resource_name).patches) := by
  have hlook : lookupD
      (if containsKey reference_pods r.resource_name then reference_pods
        else reference_pods ++ [(r.resource_name, 0)]) r.resource_name 0 =
      lookupD reference_pods r.resource_name 0 := by
    by_cases hc : containsKey reference_pods r.resource_name
    · rw [if_pos hc]
    · rw [if_neg hc, lookupD_append_single, if_neg hc,
        lookupD_eq_default_of_not_contains _ _ _ (Bool.eq_false_iff.mpr hc)]
  have hcont : containsKey
      (if containsKey reference_pods r.resource_name then reference_pods
        else reference_pods ++ [(r.resource_name, 0)]) r.resource_name = true := by
    by_cases hc : containsKey reference_pods r.resource_name
    · rw [if_pos hc]; exact hc
    · rw [if_neg hc]; exact containsKey_append_single_self _ _ _
  have hframe : ∀ k, k ≠ r.resource_name → lookupD
      (if containsKey reference_pods r.resource_name then reference_pods
        else reference_pods ++ [(r.resource_name, 0)]) k 0 =
      lookupD reference_pods k 0 := by
    intro k hk
    by_cases hc : containsKey reference_pods r.resource_name
    · rw [if_pos hc]
    · rw [if_neg hc, lookupD_append_single_ne _ _ _ _ _ hk]
  unfold scale_secondary_entry
  rw [href]
  simp only [bind, Except.bind, hlook]
  by_cases hpos : 0 < curRef - lookupD reference_pods r.resource_name 0
  · rw [if_pos hpos]
    obtain ⟨cur, hcur⟩ := get_current_pods_is_ok c r.resource_ns r.resource_type
      r.resource_name false hrt
    rw [hcur]
    refine ⟨_, _, rfl, ?_, ?_, ?_, ?_⟩
    · exact lookupD_setKey_self _ _ _ _ hcont
    · intro k hk
      rw [lookupD_setKey_ne _ _ _ _ _ hk]
      exact hframe k hk
    · intro hle
      omega
    · intro _
      exact ⟨cur, rfl, rfl⟩
  · rw [if_neg hpos]
    refine ⟨_, _, rfl, ?_, ?_, ?_, ?_⟩
    · exact lookupD_setKey_self _ _ _ _ hcont
    · intro k hk
      rw [lookupD_setKey_ne _ _ _ _ _ hk]
      exact hframe k hk
    · intro _
      rfl
    · intro hgt
      omega

/-- Concrete cluster for the C9 witness: one deployment named primary with
2 configured replicas, none of them available yet. -/
def witnessCluster : KubeCluster where
  deployments := fun _ => [⟨"primary", some 2, some 0⟩]
  jobs := fun _ => []

/-- Concrete secondary rule for the C9 witness. -/
def witnessSecondaryRule : SecondaryRule :=
  ⟨"consumer", "deployment", "ns", "primary", "deployment", "ns", 7, 0, 10⟩

/-- Witness for C9: zero newly observed reference replicas still update
the memory, and no patch is issued. -/
theorem scale_secondary_entry_updates_memory_witness :
    ∃ rp' patches,
      scale_secondary_entry witnessCluster [] witnessSecondaryRule =
        Except.ok (rp', patches) ∧
      lookupD rp' "consumer" 0 = 0 ∧ patches = [] := by
  obtain ⟨rp', patches, h1, h2, _, h4, _⟩ :=
    scale_secondary_entry_updates_memory witnessCluster [] witnessSecondaryRule 0
      rfl (Or.inl rfl)
  exact ⟨rp', patches, h1, h2, h4 (by decide)⟩

/-! ## Backlog tally (autoscaler.py lines 119-143) -/

/-- The `self.completed_statuses` set (autoscaler.py:58). -/
def completed_statuses : List String := ["done", "failed"]

/-- Python `re.match(k, key)` for a configured queue pattern `k`
(autoscaler.py:129,138).  The configured patterns (predict, train, track)
are literal words, for which `re.match` succeeds exactly when the pattern
is a prefix of the key. -/
def rmatch (pat key : String) : Bool := pat.toList.isPrefixOf key.toList

/-- The Redis state that `tally_keys` reads: the keys yielded by
`scan_iter`, each key's type, and `hget key status`. -/
structure RedisDB where
  keys : List String
  typeOf : String → String
  hget : String → String → Option String

/-- Whether a scanned key is live: hash type, with a status field that is
present and not in the completed statuses (autoscaler.py:130-136). -/
def statusCounts (db : RedisDB) (key : String) : Bool :=
  if db.typeOf key ≠ "hash" then false
  else
    match db.hget key "status" with
    | none => false
    | some s => if completed_statuses.contains s then false else true

/-- Whether a scanned key counts toward the tally of pattern `p`. -/
def keyCounted (db : RedisDB) (p key : String) : Bool :=
  rmatch p key && statusCounts db key

/-- The per-key body of the `scan_iter` loop in `Autoscaler.tally_keys`
(autoscaler.py:128-139): if any tallied pattern matches the key, skip
non-hash keys, read the status, and if the status is present and not
completed increment every matching pattern's tally. -/
def tallyStep (db : RedisDB) (tallies : List (String × Nat)) (key : String) :
    List (String × Nat) :=
  if tallies.any (fun kv => rmatch kv.1 key) then
    if db.typeOf key ≠ "hash" then tallies
    else
      match db.hget key "status" with
      | none => tallies
      | some s =>
        if completed_statuses.contains s then tallies
        else tallies.map (fun kv => if rmatch kv.1 key then (kv.1, kv.2 + 1) else kv)
  else tallies

/-- Embedding of `Autoscaler.tally_keys` (autoscaler.py:119-143): reset
every tally in `self.redis_keys` to 0, then fold the scan loop over the
scanned keys. -/
def tally_keys (db : RedisDB) (tallies : List (String × Nat)) : List (String × Nat) :=
  db.keys.foldl (tallyStep db) (tallies.map (fun kv => (kv.1, 0)))

theorem list_map_congr_mem {α β : Type} {l : List α} {f g : α → β}
    (h : ∀ a ∈ l, f a = g a) : l.map f = l.map g := by
  induction l with
  | nil => rfl
  | cons a t ih =>
    simp only [List.map_cons, h a (by simp)]
    rw [ih (fun x hx => h x (by simp [hx]))]

theorem tallyStep_map (db : RedisDB) (init : List (String × Nat))
    (f : String → Nat) (key : String) :
    tallyStep db (init.map (fun kv => (kv.1, f kv.1))) key =
      init.map (fun kv => (kv.1, f kv.1 + (if keyCounted db kv.1 key then 1 else 0))) := by
  unfold tallyStep
  by_cases hany : init.any (fun kv => rmatch kv.1 key)
  · rw [if_pos (by simpa [List.any_map, Function.comp] using hany)]
    by_cases htype : db.typeOf key ≠ "hash"
    · rw [if_pos htype]
      refine list_map_congr_mem fun kv _ => ?_
      simp [keyCounted, statusCounts, htype]
    · rw [if_neg htype]
      cases hstatus : db.hget key "status" with
      | none =>
        refine list_map_congr_mem fun kv _ => ?_
        simp [keyCounted, statusCounts, htype, hstatus]
      | some s =>
        dsimp only
        by_cases hs : completed_statuses.contains s
        · rw [if_pos hs]
          have hs' : s ∈ completed_statuses := by simpa using hs
          refine list_map_congr_mem fun kv _ => ?_
          simp [keyCounted, statusCounts, htype, hstatus, hs']
        · rw [if_neg hs]
          have hs' : s ∉ completed_statuses := by simpa using hs
          rw [List.map_map]
          refine list_map_congr_mem fun kv _ => ?_
          by_cases hr : rmatch kv.1 key <;>
            simp [Function.comp, keyCounted, statusCounts, htype, hstatus, hs', hr]
  · rw [if_neg (by simpa [List.any_map, Function.comp] using hany)]
    refine list_map_congr_mem fun kv hkv => ?_
    have hr : rmatch kv.1 key = false := by
      by_contra hcon
      exact hany (List.any_eq_true.mpr ⟨kv, hkv, by simpa using hcon⟩)
    simp [keyCounted, hr]

theorem tally_foldl (db : RedisDB) (init : List (String × Nat))
    (keys : List String) (f : String → Nat) :
    keys.foldl (tallyStep db) (init.map (fun kv => (kv.1, f kv.1))) =
      init.map (fun kv =>
        (kv.1, f kv.1 + keys.countP (fun key => keyCounted db kv.1 key))) := by
  induction keys generalizing f with
  | nil => simp
  | cons key rest ih =>
    rw [List.foldl_cons, tallyStep_map,
      ih (fun p => f p + (if keyCounted db p key then 1 else 0))]
    refine list_map_congr_mem fun kv _ => ?_
    rw [List.countP_cons]
    by_cases hc : keyCounted db kv.1 key <;> simp [hc] <;> omega

/-- C5: every call of `tally_keys` resets the tallies and produces, for
each configured pattern, exactly the count of scanned keys that match the
pattern, are of hash type, and have a status field that is present and
not completed — independent of the tallies held before the call. -/
theorem tally_keys_complete_snapshot (db : RedisDB) (tallies : List (String × Nat)) :
    tally_keys db tallies =
      tallies.map (fun kv =>
        (kv.1, db.keys.countP (fun key => keyCounted db kv.1 key))) := by
  unfold tally_keys
  have h := tally_foldl db tallies db.keys (fun _ => 0)
  simpa using h

/-! ## Configuration parsing (autoscaler.py lines 80-111) -/

/-- Python `string.split(sep)` for a one-character separator, over the
character list of the string: `"a;b".split(";") = ["a", "b"]` and
`"".split(";") = [""]`.  The deployment and parameter delimiters used by
the autoscaler are the single characters `;` and `|`. -/
def splitOnChar (d : Char) : List Char → List (List Char)
  | [] => [[]]
  | c :: rest =>
    let r := splitOnChar d rest
    if c = d then [] :: r
    else
      match r with
      | [] => [[c]]
      | h :: t => (c :: h) :: t

/-- Python `str.strip()`: drop whitespace from both ends. -/
def trimChars (s : List Char) : List Char :=
  ((s.dropWhile Char.isWhitespace).reverse.dropWhile Char.isWhitespace).reverse

def digitsToNat (ds : List Char) : Nat :=
  ds.foldl (fun acc c => acc * 10 + (c.toNat - 48)) 0

/-- Python `int(string)`: strip whitespace, allow an optional sign, then
require at least one digit; raise ValueError (modelled `none`) otherwise.
(Python additionally allows underscore digit grouping, which the scaling
configurations never use.) -/
def pyInt (s : List Char) : Option Int :=
  match trimChars s with
  | '-' :: ds =>
    if ds ≠ [] ∧ ds.all Char.isDigit then some (-(digitsToNat ds : Int)) else none
  | '+' :: ds =>
    if ds ≠ [] ∧ ds.all Char.isDigit then some ((digitsToNat ds : Int)) else none
  | ds =>
    if ds ≠ [] ∧ ds.all Char.isDigit then some ((digitsToNat ds : Int)) else none

/-- Positional field access `entry[i]` on a split entry; the default is
irrelevant because every use is guarded by the length test. -/
def fieldAt (entry : List (List Char)) (i : Nat) : List Char := entry.getD i []

/-- The `(namespace, resource_type, name)` grouping key built from fields
3, 4 and 6 of an entry (autoscaler.py:91-95). -/
abbrev Fingerprint := String × String × String

/-- Append a rule to the group of the given fingerprint, mirroring
`params[fingerprint].append(dict)` (autoscaler.py:100-105); the params
dict is modelled as an insertion-ordered association list. -/
def addRule : List (Fingerprint × List ScaleRule) → Fingerprint → ScaleRule →
    List (Fingerprint × List ScaleRule)
  | [], _, _ => []
  | g :: gs, fpr, r => if g.1 = fpr then (g.1, g.2 ++ [r]) :: gs else g :: addRule gs fpr r

/-- The body of the entry loop of
`Autoscaler._get_primary_autoscaling_params` (autoscaler.py:87-109).
An entry with fewer than seven fields raises IndexError while the
fingerprint tuple is being built, before any mutation, and is logged and
skipped.  With seven or more fields the fingerprint group is created
first (line 97-98), so a ValueError from `int()` (modelled by `pyInt`
returning `none`) still leaves behind the possibly fresh empty group and
is then logged and skipped.  The accumulator carries the params together
with the number of malformed-entry errors logged. -/
def parsePrimaryEntry (acc : List (Fingerprint × List ScaleRule) × Nat)
    (entry : List (List Char)) : List (Fingerprint × List ScaleRule) × Nat :=
  if entry.length < 7 then (acc.1, acc.2 + 1)
  else
    let fpr : Fingerprint :=
      (String.mk (trimChars (fieldAt entry 3)),
       String.mk (trimChars (fieldAt entry 4)),
       String.mk (trimChars (fieldAt entry 6)))
    let params1 := if acc.1.any (fun g => g.1 = fpr) then acc.1 else acc.1 ++ [(fpr, [])]
    match pyInt (fieldAt entry 0) with
    | none => (params1, acc.2 + 1)
    | some a =>
      match pyInt (fieldAt entry 1) with
      | none => (params1, acc.2 + 1)
      | some b =>
        match pyInt (fieldAt entry 2) with
        | none => (params1, acc.2 + 1)
        | some c =>
          (addRule params1 fpr ⟨a, b, c, String.mk (trimChars (fieldAt entry 5))⟩, acc.2)

/-- Embedding of `Autoscaler._get_primary_autoscaling_params`
(autoscaler.py:80-111): split the configuration on the deployment
delimiter, split each entry on the parameter delimiter, and fold the
entry loop. -/
def get_primary_autoscaling_params (cfg : List Char) (dd pd : Char) :
    List (Fingerprint × List ScaleRule) × Nat :=
  ((splitOnChar dd cfg).map (splitOnChar pd)).foldl parsePrimaryEntry ([], 0)

/-- An entry parses to a rule exactly when it has the seven positional
fields and its three numeric fields are integers. -/
def wellFormedEntry (entry : List (List Char)) : Bool :=
  7 ≤ entry.length &&
    (pyInt (fieldAt entry 0)).isSome &&
    (pyInt (fieldAt entry 1)).isSome &&
    (pyInt (fieldAt entry 2)).isSome

/-- The total number of parsed rules over all fingerprint groups. -/
def totalRules (params : List (Fingerprint × List ScaleRule)) : Nat :=
  (params.map (fun g => g.2.length)).sum

theorem totalRules_append_empty (params : List (Fingerprint × List ScaleRule))
    (fpr : Fingerprint) : totalRules (params ++ [(fpr, [])]) = totalRules params := by
  simp [totalRules]

theorem totalRules_addRule (params : List (Fingerprint × List ScaleRule))
    (fpr : Fingerprint) (r : ScaleRule)
    (h : params.any (fun g => g.1 = fpr) = true) :
    totalRules (addRule params fpr r) = totalRules params + 1 := by
  induction params with
  | nil => simp at h
  | cons g gs ih =>
    by_cases hg : g.1 = fpr
    · simp only [addRule, if_pos hg, totalRules, List.map_cons, List.sum_cons,
        List.length_append, List.length_singleton]
      omega
    · have h' : gs.any (fun g => g.1 = fpr) = true := by
        simpa [List.any_cons, hg] using h
      simp only [addRule, if_neg hg, totalRules, List.map_cons, List.sum_cons] at ih ⊢
      rw [ih h']
      omega

theorem parsePrimaryEntry_step (acc : List (Fingerprint × List ScaleRule) × Nat)
    (entry : List (List Char)) :
    totalRules (parsePrimaryEntry acc entry).1 =
      totalRules acc.1 + (if wellFormedEntry entry then 1 else 0) ∧
    (parsePrimaryEntry acc entry).2 =
      acc.2 + (if wellFormedEntry entry then 0 else 1) := by
  have hparams1 : ∀ fpr : Fingerprint,
      totalRules (if acc.1.any (fun g => g.1 = fpr) then acc.1 else acc.1 ++ [(fpr, [])]) =
        totalRules acc.1 := by
    intro fpr
    by_cases hp : acc.1.any (fun g => g.1 = fpr)
    · rw [if_pos hp]
    · rw [if_neg hp, totalRules_append_empty]
  have hpresent : ∀ fpr : Fingerprint,
      ((if acc.1.any (fun g => g.1 = fpr) then acc.1 else acc.1 ++ [(fpr, [])]).any
        (fun g => g.1 = fpr)) = true := by
    intro fpr
    by_cases hp : acc.1.any (fun g => g.1 = fpr)
    · rwa [if_pos hp]
    · rw [if_neg hp]
      simp [List.any_append]
  by_cases hlen : entry.length < 7
  · have h7 : ¬ 7 ≤ entry.length := by omega
    simp [parsePrimaryEntry, wellFormedEntry, hlen, h7]
  · have h7 : 7 ≤ entry.length := by omega
    cases h0 : pyInt (fieldAt entry 0) with
    | none => simp [parsePrimaryEntry, wellFormedEntry, hlen, h7, h0, hparams1]
    | some a =>
      cases h1 : pyInt (fieldAt entry 1) with
      | none => simp [parsePrimaryEntry, wellFormedEntry, hlen, h7, h0, h1, hparams1]
      | some b =>
        cases h2 : pyInt (fieldAt entry 2) with
        | none => simp [parsePrimaryEntry, wellFormedEntry, hlen, h7, h0, h1, h2, hparams1]
        | some c =>
          simp only [parsePrimaryEntry, wellFormedEntry, if_neg hlen, h0, h1, h2]
          refine ⟨?_, by simp [h7]⟩
          rw [totalRules_addRule _ _ _ (hpresent _), hparams1 _]
          simp [h7]

theorem parse_fold_counts (entries : List (List (List Char)))
    (acc : List (Fingerprint × List ScaleRule) × Nat) :
    totalRules ((entries.foldl parsePrimaryEntry acc).1) =
      totalRules acc.1 + entries.countP wellFormedEntry ∧
    (entries.foldl parsePrimaryEntry acc).2 =
      acc.2 + entries.countP (fun e => ! wellFormedEntry e) := by
  induction entries generalizing acc with
  | nil => simp
  | cons e rest ih =>
    rw [List.foldl_cons]
    obtain ⟨h1, h2⟩ := parsePrimaryEntry_step acc e
    obtain ⟨ih1, ih2⟩ := ih (parsePrimaryEntry acc e)
    constructor
    · rw [ih1, h1, List.countP_cons]
      by_cases hw : wellFormedEntry e <;> simp [hw] <;> omega
    · rw [ih2, h2, List.countP_cons]
      by_cases hw : wellFormedEntry e <;> simp [hw] <;> omega

/-- C6: for any configuration string and distinct delimiters, parsing
produces one rule per entry that has the seven positional fields with
integer numeric fields, and logs one error per malformed entry without
aborting: the rule count is exactly the count of well-formed entries and
the error count exactly the count of malformed ones. -/
theorem get_primary_autoscaling_params_counts (cfg : List Char) (dd pd : Char)
    (hdelim : dd ≠ pd) :
    totalRules (get_primary_autoscaling_params cfg dd pd).1 =
      ((splitOnChar dd cfg).map (splitOnChar pd)).countP wellFormedEntry ∧
    (get_primary_autoscaling_params cfg dd pd).2 =
      ((splitOnChar dd cfg).map (splitOnChar pd)).countP (fun e => ! wellFormedEntry e) := by
  unfold get_primary_autoscaling_params
  have h := parse_fold_counts ((splitOnChar dd cfg).map (splitOnChar pd)) ([], 0)
  simpa [totalRules] using h

/-- Witness for C6: one well-formed and one malformed entry (wrong field
count) parse to exactly one rule with one error logged. -/
theorem get_primary_autoscaling_params_counts_witness :
    (';' : Char) ≠ '|' ∧
    totalRules (get_primary_autoscaling_params
      ("1|2|3|ns|deployment|predict|web;oops|x").toList ';' '|').1 = 1 ∧
    (get_primary_autoscaling_params
      ("1|2|3|ns|deployment|predict|web;oops|x").toList ';' '|').2 = 1 := by
  have h := get_primary_autoscaling_params_counts
    ("1|2|3|ns|deployment|predict|web;oops|x").toList ';' '|' (by decide)
  exact ⟨by decide, h.1.trans (by decide), h.2.trans (by decide)⟩

/-! ## Redis client retry wrapper (redis.py lines 164-190) -/

/-- The redis-py exceptions relevant to the wrapper.  In the redis-py
class hierarchy, `ConnectionError` subclasses `RedisError`, while
`ReadOnlyError` (raised for a READONLY response, e.g. when writing to a
demoted primary) subclasses `ResponseError`: a read-only failure is not a
`ConnectionError`. -/
inductive RedisExc
  | connectionError
  | readOnlyError
  | otherError
deriving DecidableEq

/-- Which exceptions the handler `except redis.exceptions.ConnectionError`
(redis.py:177) catches. -/
def isConnectionError : RedisExc → Bool
  | .connectionError => true
  | _ => false

/-- One attempted invocation of the wrapped `redis_function`. -/
inductive CallOutcome
  | success (v : Nat)
  | failure (e : RedisExc)
deriving DecidableEq

/-- Observable behaviour of one `wrapper(*args, **kwargs)` call built by
`RedisClient.__getattr__` (redis.py:172-190), driven by the sequence of
outcomes that successive attempts of the underlying `redis_function`
produce: `while True` try the call; on success return its value; on a
`ConnectionError` log a warning, `time.sleep(self.backoff)` and loop; on
any other exception log it as unexpected and re-raise it.  The result is
the returned value or raised exception, the list of sleep durations
performed, and the number of warnings logged; `none` models a trace that
ends while the loop is still retrying. -/
def redis_call_loop (backoff : Nat) :
    List CallOutcome → Option (Except RedisExc Nat × List Nat × Nat)
  | [] => none
  | .success v :: _ => some (.ok v, [], 0)
  | .failure e :: rest =>
    if isConnectionError e then
      (redis_call_loop backoff rest).map (fun r => (r.1, backoff :: r.2.1, r.2.2 + 1))
    else some (.error e, [], 0)

/-- C3: if the underlying call raises a transient connection error exactly
n times and then succeeds, the wrapper returns the successful result,
sleeps the backoff exactly n times, and logs one warning per failure; the
failures never propagate to the caller. -/
theorem redis_retry_transient_connection_errors (backoff v n : Nat) :
    redis_call_loop backoff
      (List.replicate n (CallOutcome.failure RedisExc.connectionError) ++
        [CallOutcome.success v]) =
      some (Except.ok v, List.replicate n backoff, n) := by
  induction n with
  | zero => rfl
  | succ m ih =>
    simp only [List.replicate_succ, List.cons_append, redis_call_loop,
      isConnectionError, if_true, List.append_eq, ih]
    rfl

/-- Counterexample for C4: a read-only failure on the first attempt is
re-raised to the caller with no connection reset, no sleep and no retry —
even though the next attempt would have succeeded — because
`ReadOnlyError` is a `ResponseError`, which the wrapper's only retry
handler (`except ConnectionError`) does not catch. -/
theorem redis_readonly_error_surfaces_counterexample :
    redis_call_loop 1
      [CallOutcome.failure RedisExc.readOnlyError, CallOutcome.success 7] =
      some (Except.error RedisExc.readOnlyError, [], 0) := by
  rfl

/-- C4 amended: a read-only / not-writable failure is handled by the
generic `except Exception` branch: it is logged as unexpected and
re-raised to the caller of the queue client, with no connection reset, no
sleep and no retry, whatever outcomes would have followed. -/
theorem redis_readonly_error_surfaces (backoff : Nat) (rest : List CallOutcome) :
    redis_call_loop backoff (CallOutcome.failure RedisExc.readOnlyError :: rest) =
      some (Except.error RedisExc.readOnlyError, [], 0) := by
  rfl

end KioskAutoscaler
